import Mathlib

/-!
Verification of the crawl engine in `scraper_app.py`.

The development shallowly embeds the program: pure Python helpers become Lean
functions, the single-threaded crawl loop becomes explicit state passing over a
`CrawlState`, and the external collaborators (the `requests` transport, the
readability/BeautifulSoup extraction and the HTML anchor parser) are oracles
supplied through a `Config` record, exactly as the spec itself treats them
("abstract fetch / extract / anchor capabilities").  The pieces of the Python
standard library the code leans on (`urllib.parse.urlparse` / `urljoin`,
`json.dumps` on a two-field string dict, `str.strip`, `str.lower`, substring
tests) are modelled faithfully for the generic URI syntax; the model omits
`urllib`'s IPv6-bracket validation, control-character sanitisation and the
`params` component (folded into the path), none of which the program exercises.

One genuine source of nondeterminism is modelled explicitly: Python's
`list(links)` at the end of `find_internal_links` enumerates a hash `set`,
whose iteration order is implementation defined (and hash-randomised between
processes).  The engine therefore takes an enumeration function `setEnum` in
its configuration; the set's *contents* (first-occurrence deduplication) are
computed concretely, and claims about order quantify over the enumeration.
-/

set_option linter.unusedVariables false

/-! ### Python string primitives (modelled from the stdlib behaviour used) -/

/-- ASCII whitespace recognised by Python's `str.strip()` (the URLs and hrefs
involved are ASCII; full Unicode whitespace is not needed). -/
def isSpaceChar (c : Char) : Bool :=
  c = ' ' || c = '\t' || c = '\n' || c = '\r' || c = '\x0b' || c = '\x0c'

/-- Model of Python `str.strip()`. -/
def pyStrip (s : String) : String :=
  String.mk (((s.data.dropWhile isSpaceChar).reverse.dropWhile isSpaceChar).reverse)

/-- Does the first character list start with the second? -/
def listStartsWith : List Char → List Char → Bool
  | _, [] => true
  | [], _ :: _ => false
  | c :: cs, d :: ds => c = d && listStartsWith cs ds

/-- Model of Python `str.startswith`. -/
def strStartsWith (s pat : String) : Bool := listStartsWith s.data pat.data

/-- Substring occurrence on character lists (`pat` occurs somewhere in the list). -/
def listContains (pat : List Char) : List Char → Bool
  | [] => pat.isEmpty
  | c :: cs => listStartsWith (c :: cs) pat || listContains pat cs

/-- Model of Python's `pat in s` substring test. -/
def containsSub (s pat : String) : Bool := listContains pat.data s.data

/-- ASCII lower-casing of one character (Python `str.lower` restricted to the
ASCII inputs — schemes and content types — the program feeds it). -/
def lowerChar (c : Char) : Char :=
  if 'A' ≤ c && c ≤ 'Z' then Char.ofNat (c.toNat + 32) else c

/-- Model of Python `str.lower` on ASCII strings. -/
def pyLower (s : String) : String := String.mk (s.data.map lowerChar)

/-! ### Model of `urllib.parse` (urlparse / urlunparse / urljoin)

Translated from CPython's `urllib/parse.py`, with the `params` component
folded into the path (the program never touches `;` parameters). -/

structure UrlParts where
  scheme : String
  netloc : String
  path : String
  query : String
  fragment : String
deriving DecidableEq, Repr

/-- Characters allowed after the first letter of a URL scheme. -/
def schemeChar (c : Char) : Bool :=
  c.isAlpha || c.isDigit || c = '+' || c = '-' || c = '.'

/-- Split a character list at the first occurrence of `d` (the delimiter is
dropped); `none` when `d` does not occur. -/
def splitAtChar (d : Char) : List Char → Option (List Char × List Char)
  | [] => none
  | c :: cs =>
    if c = d then some ([], cs)
    else
      match splitAtChar d cs with
      | none => none
      | some (a, b) => some (c :: a, b)

/-- CPython `_splitnetloc`: take characters up to the first `/`, `?` or `#`. -/
def takeNetloc : List Char → List Char × List Char
  | [] => ([], [])
  | c :: cs =>
    if c = '/' || c = '?' || c = '#' then ([], c :: cs)
    else
      let r := takeNetloc cs
      (c :: r.1, r.2)

/-- Model of `urllib.parse.urlsplit url defaultScheme` (with params folded into
the path, and without the IPv6-bracket `ValueError`, which the crawler's URLs
never trigger). -/
def urlsplitM (defaultScheme : String) (url : String) : UrlParts :=
  let cs := url.data
  let sr : String × List Char :=
    match splitAtChar ':' cs with
    | none => (defaultScheme, cs)
    | some (before, after) =>
      match before with
      | [] => (defaultScheme, cs)
      | c0 :: restScheme =>
        if c0.isAlpha && restScheme.all schemeChar then (pyLower (String.mk before), after)
        else (defaultScheme, cs)
  let rest := sr.2
  let nr : String × List Char :=
    if listStartsWith rest ['/', '/'] then
      let t := takeNetloc (rest.drop 2)
      (String.mk t.1, t.2)
    else ("", rest)
  let fr : List Char × String :=
    match splitAtChar '#' nr.2 with
    | none => (nr.2, "")
    | some (a, b) => (a, String.mk b)
  let qr : List Char × String :=
    match splitAtChar '?' fr.1 with
    | none => (fr.1, "")
    | some (a, b) => (a, String.mk b)
  { scheme := sr.1, netloc := nr.1, path := String.mk qr.1, query := qr.2, fragment := fr.2 }

/-- Model of `urllib.parse.urlparse` (no default scheme). -/
def urlparseM (url : String) : UrlParts := urlsplitM "" url

/-- Model of `urllib.parse.urlunparse` / `SplitResult.geturl`. -/
def urlunparseM (p : UrlParts) : String :=
  let u0 := p.path
  let u1 :=
    if p.netloc ≠ "" ∨ (u0 ≠ "" ∧ listStartsWith u0.data ['/', '/'] = true) then
      "//" ++ p.netloc ++ (if u0 ≠ "" ∧ ¬ (listStartsWith u0.data ['/'] = true) then "/" ++ u0 else u0)
    else u0
  let u2 := if p.scheme ≠ "" then p.scheme ++ ":" ++ u1 else u1
  let u3 := if p.query ≠ "" then u2 ++ "?" ++ p.query else u2
  if p.fragment ≠ "" then u3 ++ "#" ++ p.fragment else u3

/-- Split a string on every occurrence of a character, Python `str.split(d)`. -/
def splitOnCharAux (d : Char) : List Char → List Char → List (List Char)
  | [], cur => [cur.reverse]
  | c :: cs, cur =>
    if c = d then cur.reverse :: splitOnCharAux d cs []
    else splitOnCharAux d cs (c :: cur)

/-- Python `s.split(d)` for a single-character separator. -/
def splitOnChar (d : Char) (s : String) : List String :=
  (splitOnCharAux d s.data []).map String.mk

/-- The `..` / `.` segment resolution loop of CPython `urljoin` (pop on `..`,
skip `.`, append otherwise; popping an empty stack is a no-op). -/
def resolveDots : List String → List String → List String
  | [], acc => acc
  | seg :: rest, acc =>
    if seg = ".." then resolveDots rest acc.dropLast
    else if seg = "." then resolveDots rest acc
    else resolveDots rest (acc ++ [seg])

/-- CPython `urljoin`'s `segments[1:-1] = filter(None, segments[1:-1])`: drop
empty segments, keeping the first and last elements. -/
def filterMiddle : List String → List String
  | [] => []
  | [x] => [x]
  | x :: xs => x :: (xs.dropLast.filter (fun s => s ≠ "") ++ [xs.getLastD ""])

/-- `urllib.parse.uses_relative`. -/
def uses_relative : List String :=
  ["", "ftp", "http", "gopher", "nntp", "imap", "wais", "file", "https", "shttp",
   "mms", "prospero", "rtsp", "rtspu", "sftp", "svn", "svn+ssh", "ws", "wss"]

/-- `urllib.parse.uses_netloc`. -/
def uses_netloc : List String :=
  ["", "ftp", "http", "gopher", "nntp", "telnet", "imap", "wais", "file", "mms",
   "https", "shttp", "snews", "prospero", "rtsp", "rtspu", "rsync", "svn",
   "svn+ssh", "sftp", "nfs", "git", "git+ssh", "ws", "wss"]

/-- Model of `urllib.parse.urljoin`, translated clause by clause from CPython
(with params folded into the path). -/
def urljoinM (base url : String) : String :=
  if base = "" then url
  else if url = "" then base
  else
    let b := urlsplitM "" base
    let u := urlsplitM b.scheme url
    if u.scheme ≠ b.scheme ∨ u.scheme ∉ uses_relative then url
    else if u.scheme ∈ uses_netloc ∧ u.netloc ≠ "" then urlunparseM u
    else
      let netloc := if u.scheme ∈ uses_netloc then b.netloc else u.netloc
      if u.path = "" then
        urlunparseM { scheme := u.scheme, netloc := netloc, path := b.path,
                      query := if u.query = "" then b.query else u.query,
                      fragment := u.fragment }
      else
        let baseParts0 := splitOnChar '/' b.path
        let baseParts := if baseParts0.getLastD "" ≠ "" then baseParts0.dropLast else baseParts0
        let segments :=
          if listStartsWith u.path.data ['/'] then splitOnChar '/' u.path
          else filterMiddle (baseParts ++ splitOnChar '/' u.path)
        let resolved0 := resolveDots segments []
        let resolved :=
          if segments.getLastD "" = ".." ∨ segments.getLastD "" = "." then resolved0 ++ [""]
          else resolved0
        let joined := String.intercalate "/" resolved
        urlunparseM { scheme := u.scheme, netloc := netloc,
                      path := if joined = "" then "/" else joined,
                      query := u.query, fragment := u.fragment }

example : urlparseM "https://meet.eslite.com/hk/tc/artshow" =
    { scheme := "https", netloc := "meet.eslite.com", path := "/hk/tc/artshow",
      query := "", fragment := "" } := by decide

example : urljoinM "http://h/a/b#f" "../c" = "http://h/c" := by decide

example : urljoinM "http://h/a/b" "/x?q=1#frag" = "http://h/x?q=1#frag" := by decide

example : urlunparseM { urlparseM "http://h/x?q=1#frag" with fragment := "" } =
    "http://h/x?q=1" := by decide

/-! ### Fetcher (`fetch_html`, src/scraper_app.py lines 38–60)

The network transport is external; its observable outcome for one GET is one
of the cases of `FetchOutcome`: a response arrived (with a flag saying whether
`raise_for_status` passes, i.e. the status is not 4xx/5xx, the declared
`content-type` header if any, and the body text), or one of the exception
classes the function catches.  `fetch_html` translates every outcome into
`Option String`: it never propagates an exception (`requests.exceptions.Timeout`,
`TooManyRedirects`, other `RequestException`s — which include the `HTTPError`
raised by `raise_for_status` — and the final `except Exception` catch-all each
return `None`). -/

inductive FetchOutcome where
  | response (statusOk : Bool) (contentType : Option String) (body : String)
  | timeout
  | tooManyRedirects
  | requestError
  | unexpectedError
deriving DecidableEq

/-- Model of `fetch_html`: `raise_for_status` failures and all caught
exceptions yield `none`; a successful response yields the body only when the
lower-cased declared content type (defaulting to `""`) contains `"html"`. -/
def fetch_html : FetchOutcome → Option String
  | FetchOutcome.response statusOk contentType body =>
    if statusOk then
      if containsSub (pyLower (contentType.getD "")) "html" then some body else none
    else none
  | _ => none

/-! ### LinkDiscoverer (`find_internal_links`, src/scraper_app.py lines 81–108)

BeautifulSoup's anchor parsing is external: the function receives the list of
`href` attribute values of the document's `<a href=...>` tags, in document
order (the engine's `Config.anchors` oracle produces that list from a body).
The Python function accumulates `clean_url`s into a `set`; the model computes
the set's contents as a duplicate-free list in first-insertion order
(`dedupAdd`), and the enumeration order of `list(links)` is accounted for by
the engine's `setEnum` parameter. -/

/-- Adding to a Python `set`: membership test, then insert. The model keeps
the contents as a duplicate-free list in first-insertion order. -/
def dedupAdd (links : List String) (u : String) : List String :=
  if u ∈ links then links else links ++ [u]

/-- `href.startswith(('#', 'mailto:', 'tel:', 'javascript:'))`. -/
def badPrefixTest (href : String) : Bool :=
  strStartsWith href "#" || strStartsWith href "mailto:" ||
    strStartsWith href "tel:" || strStartsWith href "javascript:"

/-- The body of the `for a_tag in soup.find_all('a', href=True)` loop (lines
97–107): strip the href, skip empty/`#`/`mailto:`/`tel:`/`javascript:` ones,
resolve against the base, keep http(s) URLs on exactly the base host, strip
the fragment, and insert into the set. -/
def filStep (base_url base_domain : String) (links : List String) (href0 : String) : List String :=
  let href := pyStrip href0
  if href ≠ "" ∧ badPrefixTest href = false then
    let parsed_url := urlparseM (urljoinM base_url href)
    if (parsed_url.scheme = "http" ∨ parsed_url.scheme = "https") ∧
        parsed_url.netloc = base_domain then
      dedupAdd links (urlunparseM { parsed_url with fragment := "" })
    else links
  else links

/-- Model of `find_internal_links(html, base_url)`, applied to the hrefs of the
document's anchors.  (The source's `if not html_content: return []` guard is
subsumed: an empty document has no anchor tags, so its href list is `[]`; the
`except ValueError` guards are dead in the model because the `urllib` model is
total, mirroring that those exceptions silently drop the single href.) -/
def find_internal_links (hrefs : List String) (base_url : String) : List String :=
  let base_domain := (urlparseM base_url).netloc
  if base_domain = "" then []
  else hrefs.foldl (filStep base_url base_domain) []

/-- Modelled from the spec's words for claim C6 ("Filtering pipeline per href,
in order"): (a) trim whitespace; (b) reject empty or `#`/`mailto:`/`tel:`/
`javascript:` prefixes; (c) resolve against the base; (d) reject non-http(s)
schemes; (e) reject hosts differing from the base host; (f) strip the
fragment.  Used only to compare the spec's pipeline against the source. -/
def spec_href_filter (base_url href0 : String) : Option String :=
  let href := pyStrip href0
  if href = "" then none
  else if badPrefixTest href = true then none
  else
    let p := urlparseM (urljoinM base_url href)
    if (p.scheme = "http" ∨ p.scheme = "https") ∧ p.netloc = (urlparseM base_url).netloc then
      some (urlunparseM { p with fragment := "" })
    else none

/-! ### CrawlEngine (`crawl_website_streamlit`, src/scraper_app.py lines 112–246)

State of the loop: the frontier deque, the visited set (as a duplicate-free
list — only membership is used), the two counters and the in-memory result
accumulator.  Two ghost fields record observable history without influencing
the computation: `fetchedLog` (the successive `current_url`s dequeued and
fetched) and `enqueuedLog` (every URL ever appended to the frontier, the seed
included).  Streamlit placeholders, the log buffer and `time.sleep` have no
effect on this state and are not modelled. -/

structure PageRecord where
  url : String
  text : String
deriving DecidableEq, Repr

structure CrawlState where
  queue : List String
  visited : List String
  pagesScraped : Nat
  dataSaved : Nat
  results : List PageRecord
  fetchedLog : List String
  enqueuedLog : List String
deriving DecidableEq, Repr

/-- The engine's external collaborators and configuration: `fetch` is
`fetch_html` composed with the network (`none` = falsy return), `clean` is
`clean_html_text` (readability + BeautifulSoup, `none` = `None`), `anchors`
lists the href attributes of a body's anchor tags in document order, and
`setEnum` is the enumeration order CPython's `list(...)` gives the link set. -/
structure Config where
  fetch : String → Option String
  clean : String → Option String
  anchors : String → List String
  setEnum : List String → List String
  maxPages : Nat
  minTextLength : Nat

/-- Lines 116–117: `queue = collections.deque([start_url])`,
`visited_urls = {start_url}`, counters zero, accumulator empty. -/
def initState (start_url : String) : CrawlState :=
  { queue := [start_url], visited := [start_url], pagesScraped := 0, dataSaved := 0,
    results := [], fetchedLog := [], enqueuedLog := [start_url] }

/-- Lines 167–171: one link of a page's discovered list — appended to the
frontier (and recorded in the visited set) only when not already visited. -/
def addLink (s : CrawlState) (link : String) : CrawlState :=
  if link ∈ s.visited then s
  else
    { s with
      visited := s.visited ++ [link], queue := s.queue ++ [link],
      enqueuedLog := s.enqueuedLog ++ [link] }

/-- Lines 146–180: one iteration of the crawl loop.  Pop the frontier head,
count it, fetch; on a truthy HTML body extract text; a page is saved and mined
for links only when the text is truthy (non-`None`, non-empty) and at least
`min_text_length` long. -/
def crawlStep (cfg : Config) (s : CrawlState) : CrawlState :=
  match s.queue with
  | [] => s
  | current_url :: restQueue =>
    let s1 : CrawlState :=
      { s with
        queue := restQueue, pagesScraped := s.pagesScraped + 1,
        fetchedLog := s.fetchedLog ++ [current_url] }
    match cfg.fetch current_url with
    | none => s1
    | some html =>
      if html = "" then s1
      else
        match cfg.clean html with
        | none => s1
        | some cleaned_text =>
          if cleaned_text ≠ "" ∧ cfg.minTextLength ≤ cleaned_text.length then
            let s2 : CrawlState :=
              { s1 with
                results := s1.results ++ [⟨current_url, cleaned_text⟩],
                dataSaved := s1.dataSaved + 1 }
            (cfg.setEnum (find_internal_links (cfg.anchors html) current_url)).foldl addLink s2
          else s1

/-- The `while queue and pages_scraped_count < max_pages` loop, with an
explicit step budget.  Because every executed iteration increments
`pagesScraped` by one, a budget of `maxPages - pagesScraped` steps is exactly
enough: when it reaches zero the guard's second conjunct is false anyway, so
`crawlLoop` below is the exact unbounded loop. -/
def crawlLoopFuel (cfg : Config) : Nat → CrawlState → CrawlState
  | 0, s => s
  | k + 1, s =>
    if s.queue ≠ [] ∧ s.pagesScraped < cfg.maxPages then crawlLoopFuel cfg k (crawlStep cfg s)
    else s

/-- The crawl loop run to its natural termination. -/
def crawlLoop (cfg : Config) (s : CrawlState) : CrawlState :=
  crawlLoopFuel cfg (cfg.maxPages - s.pagesScraped) s

/-! ### ResultSink (`json.dumps(item, ensure_ascii=False)`, lines 204–210)

Model of `json.dumps` on a `{'url': ..., 'text': ...}` dict with
`ensure_ascii=False`: default separators (`", "`, `": "`), insertion order of
the two keys, backslash/quote/control-character escaping, and non-ASCII
characters passed through unescaped. -/

/-- A single lower-case hexadecimal digit (for `\u00XX` escapes). -/
def hexDigit (n : Nat) : Char :=
  if n < 10 then Char.ofNat (48 + n) else Char.ofNat (87 + n % 16)

/-- JSON string escaping of one character, `ensure_ascii=False` flavour. -/
def jsonEscapeChar (c : Char) : List Char :=
  if c = '\\' then ['\\', '\\']
  else if c = '"' then ['\\', '"']
  else if c = '\n' then ['\\', 'n']
  else if c = '\t' then ['\\', 't']
  else if c = '\r' then ['\\', 'r']
  else if c = '\x08' then ['\\', 'b']
  else if c = '\x0c' then ['\\', 'f']
  else if c.toNat < 32 then
    ['\\', 'u', hexDigit (c.toNat / 4096 % 16), hexDigit (c.toNat / 256 % 16),
     hexDigit (c.toNat / 16 % 16), hexDigit (c.toNat % 16)]
  else [c]

/-- JSON string escaping, `ensure_ascii=False` flavour. -/
def jsonEscape (s : String) : String :=
  String.mk (s.data.foldr (fun c acc => jsonEscapeChar c ++ acc) [])

/-- `json.dumps({'url': r.url, 'text': r.text}, ensure_ascii=False)`. -/
def jsonDumpsRecord (r : PageRecord) : String :=
  "\x7b\"url\": \"" ++ jsonEscape r.url ++ "\", \"text\": \"" ++ jsonEscape r.text ++ "\"\x7d"

/-- Lines 208–210: the final write loop — one serialized record plus `'\n'`
per accumulated result, in accumulation order, into the truncated file. -/
def writeAll (records : List PageRecord) : String :=
  String.join (records.map (fun r => jsonDumpsRecord r ++ "\n"))

/-! ### The whole run (`crawl_website_streamlit` and the start-button handler)

`fileContent` is the content of `output_file` when the function returns;
`priorContent` is its content beforehand.  `clearOk` models whether the
initial `open(output_file, 'w')` (lines 132–134) succeeds — on `IOError` the
function returns `None` before the loop with the file untouched.  `writeOk`
models the final write's `IOError` (a failed final `open(..., 'w')` leaves the
truncated, i.e. empty, file).  `abortAt = some k` models an unhandled
exception thrown inside the crawl loop once `k` iterations have completed (the
engine-level `except Exception` at line 187): the loop stops, the in-memory
state is kept, `crawl_error_occurred` is set — so the final write at lines
206–210 is skipped and the file keeps its cleared (empty) content. -/

structure RunResult where
  state : CrawlState
  fileContent : String
  returned : Option String
deriving DecidableEq, Repr

/-- Model of `crawl_website_streamlit` (src/scraper_app.py lines 112–246). -/
def crawl_website_streamlit (cfg : Config) (start_url output_file : String)
    (clearOk writeOk : Bool) (priorContent : String) (abortAt : Option Nat) : RunResult :=
  if clearOk = false then
    { state := initState start_url, fileContent := priorContent, returned := none }
  else
    match abortAt with
    | some k =>
      { state := crawlLoopFuel cfg k (initState start_url), fileContent := "", returned := none }
    | none =>
      let sF := crawlLoop cfg (initState start_url)
      if writeOk then
        { state := sF, fileContent := writeAll sF.results, returned := some output_file }
      else
        { state := sF, fileContent := "", returned := none }

/-- The state observed when the crawl function is never entered (invalid start
URL rejected by the button handler): no frontier, no counters, no logs. -/
def noRunState : CrawlState :=
  { queue := [], visited := [], pagesScraped := 0, dataSaved := 0,
    results := [], fetchedLog := [], enqueuedLog := [] }

/-- Model of the `Start Crawling` button handler (lines 271–302): the start
URL is accepted only when `urlparse` gives it both a scheme and a netloc
(`all([parsed.scheme, parsed.netloc])`); otherwise the crawl function is never
called and no result path exists. -/
def startCrawlApp (cfg : Config) (start_url output_file : String)
    (clearOk writeOk : Bool) (priorContent : String) (abortAt : Option Nat) : RunResult :=
  let p := urlparseM start_url
  if p.scheme ≠ "" ∧ p.netloc ≠ "" then
    crawl_website_streamlit cfg start_url output_file clearOk writeOk priorContent abortAt
  else
    { state := noRunState, fileContent := priorContent, returned := none }

/-! ### Spec-side breadth-first traversal and derived step descriptions -/

/-- One enqueue decision on a bare (frontier, visited) pair — the projection of
`addLink` used by the spec-side traversal. -/
def pairAdd (p : List String × List String) (link : String) : List String × List String :=
  if link ∈ p.2 then p else (p.1 ++ [link], p.2 ++ [link])

/-- The links a processed page actually contributes to the frontier-merging
loop: empty unless the fetch is truthy HTML and the extracted text passes the
threshold gate, in which case they are the discovered set in the engine's
enumeration order. -/
def effectiveLinks (cfg : Config) (u : String) : List String :=
  match cfg.fetch u with
  | none => []
  | some html =>
    if html = "" then []
    else
      match cfg.clean html with
      | none => []
      | some t =>
        if t ≠ "" ∧ cfg.minTextLength ≤ t.length then
          cfg.setEnum (find_internal_links (cfg.anchors html) u)
        else []

/-- Like `effectiveLinks`, but in anchor-encounter order (no `setEnum`): the
per-page link order claim C3 asserts. -/
def anchorOrderLinks (cfg : Config) (u : String) : List String :=
  match cfg.fetch u with
  | none => []
  | some html =>
    if html = "" then []
    else
      match cfg.clean html with
      | none => []
      | some t =>
        if t ≠ "" ∧ cfg.minTextLength ≤ t.length then find_internal_links (cfg.anchors html) u
        else []

/-- The record a single processed page appends to the accumulator (at most
one). -/
def savedRecords (cfg : Config) (u : String) : List PageRecord :=
  match cfg.fetch u with
  | none => []
  | some html =>
    if html = "" then []
    else
      match cfg.clean html with
      | none => []
      | some t =>
        if t ≠ "" ∧ cfg.minTextLength ≤ t.length then [⟨u, t⟩] else []

/-- Modelled from the spec's words for claim C3: a textbook queue-based
breadth-first traversal, capped at `fuel` dequeues — pop the head, emit it,
then mark-and-enqueue each not-yet-seen child in the given per-page order. -/
def bfsSeq (chi : String → List String) : Nat → List String → List String → List String
  | 0, _, _ => []
  | _ + 1, [], _ => []
  | k + 1, u :: rest, visited =>
    u :: bfsSeq chi k ((chi u).foldl pairAdd (rest, visited)).1
      ((chi u).foldl pairAdd (rest, visited)).2

/-- The sublist of `ls` actually appended (to frontier and visited set alike)
when merging a page's links into a state whose visited set is `visited`. -/
def newAdds (visited : List String) : List String → List String
  | [] => []
  | l :: ls => if l ∈ visited then newAdds visited ls else l :: newAdds (visited ++ [l]) ls

/-- Invariant tying the ghost enqueue history to the visited set: the history
is duplicate-free and lists exactly the members of the visited set. -/
def StateInv (s : CrawlState) : Prop :=
  s.enqueuedLog.Nodup ∧ ∀ u : String, u ∈ s.enqueuedLog ↔ u ∈ s.visited

/-! ### Concrete scenarios used as counterexamples and witnesses -/

/-- A three-page site: every page's document carries anchors to `/a` then `/b`
(in that document order); every page fetches as HTML and extracts enough text.
The set enumeration is instantiated with `List.reverse` — a legitimate
enumeration of a CPython hash set, whose iteration order is unspecified. -/
def cfgC3 : Config :=
  { fetch := fun _ => some "H", clean := fun _ => some "txt",
    anchors := fun _ => ["http://s/a", "http://s/b"],
    setEnum := List.reverse, maxPages := 9, minTextLength := 3 }

/-- Extraction yields the empty string (a whitespace-only page) and the
configured minimum text length is `0` — the smallest value the UI accepts. -/
def cfgC4cx : Config :=
  { fetch := fun _ => some "H", clean := fun _ => some "",
    anchors := fun _ => [], setEnum := fun l => l, maxPages := 3, minTextLength := 0 }

/-- A page whose text passes the gate exactly (length 4 = threshold 4) and
which links to one new same-host page. -/
def cfgC4w : Config :=
  { fetch := fun _ => some "H", clean := fun _ => some "okay",
    anchors := fun _ => ["http://w/a"], setEnum := fun l => l,
    maxPages := 7, minTextLength := 4 }

/-- A site whose seed page is saved and leaves a further page on the frontier
after the first iteration (so a mid-loop exception at that point is a genuine
abort position). -/
def cfgC5 : Config :=
  { fetch := fun _ => some "H", clean := fun _ => some "texttext",
    anchors := fun _ => ["http://s5/a"], setEnum := fun l => l,
    maxPages := 5, minTextLength := 3 }

/-- Every fetch fails (e.g. times out). -/
def cfgC7 : Config :=
  { fetch := fun _ => none, clean := fun _ => none,
    anchors := fun _ => [], setEnum := fun l => l, maxPages := 3, minTextLength := 1 }

/-- A site whose every page links to the fragment-free seed page
`http://h/p`, crawled from the fragment-carrying seed `http://h/p#f`. -/
def cfgC10 : Config :=
  { fetch := fun _ => some "H", clean := fun _ => some "text",
    anchors := fun _ => ["http://h/p"], setEnum := fun l => l,
    maxPages := 5, minTextLength := 4 }

example :
    (crawlLoop cfgC3 (initState "http://s/")).fetchedLog =
      ["http://s/", "http://s/b", "http://s/a"] := by decide

example :
    bfsSeq (anchorOrderLinks cfgC3) cfgC3.maxPages ["http://s/"] ["http://s/"] =
      ["http://s/", "http://s/a", "http://s/b"] := by decide

example : (crawlLoopFuel cfgC5 1 (initState "http://s5/")).results =
    [⟨"http://s5/", "texttext"⟩] := by decide

example : (crawlLoopFuel cfgC5 1 (initState "http://s5/")).queue = ["http://s5/a"] := by decide

example :
    (crawlLoop cfgC10 (initState "http://h/p#f")).fetchedLog =
      ["http://h/p#f", "http://h/p"] := by decide

/-! ### Lemmas about the engine's frontier bookkeeping -/

lemma mem_dedupAdd (acc : List String) (v u : String) :
    u ∈ dedupAdd acc v ↔ u ∈ acc ∨ u = v := by
  unfold dedupAdd
  split
  · next h =>
    constructor
    · exact fun hu => Or.inl hu
    · rintro (hu | rfl)
      · exact hu
      · exact h
  · simp

lemma mem_newAdds (ls : List String) : ∀ (v : List String), ∀ x ∈ newAdds v ls, x ∉ v := by
  induction ls with
  | nil => intro v x hx; simp [newAdds] at hx
  | cons l ls ih =>
    intro v x hx
    by_cases h : l ∈ v
    · rw [newAdds, if_pos h] at hx
      exact ih v x hx
    · rw [newAdds, if_neg h] at hx
      rcases List.mem_cons.mp hx with rfl | hx
      · exact h
      · intro hxv
        exact ih (v ++ [l]) x hx (by simp [hxv])

lemma newAdds_nodup (ls : List String) : ∀ (v : List String), (newAdds v ls).Nodup := by
  induction ls with
  | nil => intro v; simp [newAdds]
  | cons l ls ih =>
    intro v
    by_cases h : l ∈ v
    · rw [newAdds, if_pos h]; exact ih v
    · rw [newAdds, if_neg h, List.nodup_cons]
      refine ⟨fun hl => ?_, ih (v ++ [l])⟩
      exact mem_newAdds ls (v ++ [l]) l hl (by simp)

lemma foldl_pairAdd_eq (ls : List String) : ∀ (q v : List String),
    ls.foldl pairAdd (q, v) = (q ++ newAdds v ls, v ++ newAdds v ls) := by
  induction ls with
  | nil => intro q v; simp [newAdds]
  | cons l ls ih =>
    intro q v
    by_cases h : l ∈ v
    · rw [List.foldl_cons, pairAdd, if_pos h, newAdds, if_pos h]
      exact ih q v
    · rw [List.foldl_cons, pairAdd, if_neg h, newAdds, if_neg h]
      rw [ih (q ++ [l]) (v ++ [l])]
      simp

lemma foldl_addLink_proj (ls : List String) : ∀ (s : CrawlState),
    (ls.foldl addLink s).queue = s.queue ++ newAdds s.visited ls ∧
    (ls.foldl addLink s).visited = s.visited ++ newAdds s.visited ls ∧
    (ls.foldl addLink s).pagesScraped = s.pagesScraped ∧
    (ls.foldl addLink s).dataSaved = s.dataSaved ∧
    (ls.foldl addLink s).results = s.results ∧
    (ls.foldl addLink s).fetchedLog = s.fetchedLog ∧
    (ls.foldl addLink s).enqueuedLog = s.enqueuedLog ++ newAdds s.visited ls := by
  induction ls with
  | nil => intro s; simp [newAdds]
  | cons l ls ih =>
    intro s
    by_cases h : l ∈ s.visited
    · rw [List.foldl_cons, addLink, if_pos h, newAdds, if_pos h]
      exact ih s
    · rw [List.foldl_cons, addLink, if_neg h, newAdds, if_neg h]
      have := ih { s with
        visited := s.visited ++ [l], queue := s.queue ++ [l],
        enqueuedLog := s.enqueuedLog ++ [l] }
      simpa using this

/-- One-step characterisation of the crawl loop body: popping `current` from
the frontier head always advances the counter and the fetch log by one, and
the frontier/visited/accumulator updates are described by `effectiveLinks` and
`savedRecords`. -/
lemma crawlStep_char (cfg : Config) (s : CrawlState) (current : String) (rest : List String)
    (hq : s.queue = current :: rest) :
    (crawlStep cfg s).queue = rest ++ newAdds s.visited (effectiveLinks cfg current) ∧
    (crawlStep cfg s).visited = s.visited ++ newAdds s.visited (effectiveLinks cfg current) ∧
    (crawlStep cfg s).pagesScraped = s.pagesScraped + 1 ∧
    (crawlStep cfg s).fetchedLog = s.fetchedLog ++ [current] ∧
    (crawlStep cfg s).results = s.results ++ savedRecords cfg current ∧
    (crawlStep cfg s).enqueuedLog = s.enqueuedLog ++ newAdds s.visited (effectiveLinks cfg current) := by
  unfold crawlStep
  rw [hq]
  dsimp only
  cases hf : cfg.fetch current with
  | none => simp [effectiveLinks, savedRecords, hf, newAdds]
  | some html =>
    dsimp only
    by_cases hh : html = ""
    · simp [effectiveLinks, savedRecords, hf, hh, newAdds]
    · rw [if_neg hh]
      cases hc : cfg.clean html with
      | none => simp [effectiveLinks, savedRecords, hf, hh, hc, newAdds]
      | some t =>
        dsimp only
        by_cases hg : t ≠ "" ∧ cfg.minTextLength ≤ t.length
        · rw [if_pos hg]
          have hp := foldl_addLink_proj
            (cfg.setEnum (find_internal_links (cfg.anchors html) current))
            { queue := rest, visited := s.visited, pagesScraped := s.pagesScraped + 1,
              dataSaved := s.dataSaved + 1, results := s.results ++ [⟨current, t⟩],
              fetchedLog := s.fetchedLog ++ [current], enqueuedLog := s.enqueuedLog }
          dsimp only at hp
          obtain ⟨h1, h2, h3, h4, h5, h6, h7⟩ := hp
          have hel : effectiveLinks cfg current =
              cfg.setEnum (find_internal_links (cfg.anchors html) current) := by
            simp [effectiveLinks, hf, hh, hc, hg]
          have hsr : savedRecords cfg current = [⟨current, t⟩] := by
            simp [savedRecords, hf, hh, hc, hg]
          rw [hel, hsr]
          exact ⟨h1, h2, h3, h6, h5, h7⟩
        · simp [effectiveLinks, savedRecords, hf, hh, hc, hg, newAdds]

/-- The loop guard is re-checked before every step, so the page counter can
never pass `max_pages` no matter how many steps the loop is allowed. -/
lemma crawlLoopFuel_budget (cfg : Config) : ∀ (k : Nat) (s : CrawlState),
    s.pagesScraped ≤ cfg.maxPages → (crawlLoopFuel cfg k s).pagesScraped ≤ cfg.maxPages := by
  intro k
  induction k with
  | zero => intro s h; simpa [crawlLoopFuel] using h
  | succ k ih =>
    intro s h
    rw [crawlLoopFuel]
    split
    · next hcond =>
      apply ih
      obtain ⟨hqne, hlt⟩ := hcond
      obtain ⟨current, rest, hq⟩ := List.exists_cons_of_ne_nil hqne
      have := (crawlStep_char cfg s current rest hq).2.2.1
      omega
    · exact h

/-- The page counter counts exactly the dequeued-and-fetched URLs. -/
lemma crawlLoopFuel_count (cfg : Config) : ∀ (k : Nat) (s : CrawlState),
    s.pagesScraped = s.fetchedLog.length →
    (crawlLoopFuel cfg k s).pagesScraped = (crawlLoopFuel cfg k s).fetchedLog.length := by
  intro k
  induction k with
  | zero => intro s h; simpa [crawlLoopFuel] using h
  | succ k ih =>
    intro s h
    rw [crawlLoopFuel]
    split
    · next hcond =>
      apply ih
      obtain ⟨current, rest, hq⟩ := List.exists_cons_of_ne_nil hcond.1
      obtain ⟨_, _, hp, hf, _, _⟩ := crawlStep_char cfg s current rest hq
      rw [hp, hf, List.length_append, h]
      rfl
    · exact h

lemma addLink_inv (s : CrawlState) (link : String) (h : StateInv s) :
    StateInv (addLink s link) := by
  obtain ⟨hnd, hiff⟩ := h
  unfold addLink
  by_cases hm : link ∈ s.visited
  · rw [if_pos hm]; exact ⟨hnd, hiff⟩
  · rw [if_neg hm]
    refine ⟨?_, ?_⟩
    · refine List.Nodup.append hnd (List.nodup_singleton _) ?_
      intro x hx hx'
      rcases List.mem_singleton.mp hx' with rfl
      exact hm ((hiff x).mp hx)
    · intro u
      simp only [List.mem_append, List.mem_singleton]
      exact or_congr (hiff u) Iff.rfl

lemma foldl_addLink_inv (ls : List String) : ∀ (s : CrawlState),
    StateInv s → StateInv (ls.foldl addLink s) := by
  induction ls with
  | nil => intro s h; simpa using h
  | cons l ls ih => intro s h; exact ih (addLink s l) (addLink_inv s l h)

lemma crawlStep_inv (cfg : Config) (s : CrawlState) (h : StateInv s) :
    StateInv (crawlStep cfg s) := by
  cases hq : s.queue with
  | nil =>
    have : crawlStep cfg s = s := by unfold crawlStep; rw [hq]
    rw [this]; exact h
  | cons current rest =>
    obtain ⟨_, hv, _, _, _, he⟩ := crawlStep_char cfg s current rest hq
    obtain ⟨hnd, hiff⟩ := h
    refine ⟨?_, ?_⟩
    · rw [he]
      refine List.Nodup.append hnd (newAdds_nodup _ _) ?_
      intro x hx hx'
      exact mem_newAdds _ _ x hx' ((hiff x).mp hx)
    · intro u
      rw [he, hv]
      simp only [List.mem_append]
      exact or_congr (hiff u) Iff.rfl

lemma crawlLoopFuel_inv (cfg : Config) : ∀ (k : Nat) (s : CrawlState),
    StateInv s → StateInv (crawlLoopFuel cfg k s) := by
  intro k
  induction k with
  | zero => intro s h; simpa [crawlLoopFuel] using h
  | succ k ih =>
    intro s h
    rw [crawlLoopFuel]
    split
    · exact ih _ (crawlStep_inv cfg s h)
    · exact h

/-- Bisimulation between the crawl loop and the spec-side breadth-first
traversal: run with a step budget that matches the remaining page budget
exactly (which is how `crawlLoop` invokes it), the loop's dequeue-and-fetch
sequence extends the fetch log by precisely the BFS sequence computed from the
frontier and visited set, with `effectiveLinks` as the child function. -/
lemma crawlLoopFuel_bfs (cfg : Config) : ∀ (k : Nat) (s : CrawlState),
    cfg.maxPages = s.pagesScraped + k →
    (crawlLoopFuel cfg k s).fetchedLog =
      s.fetchedLog ++ bfsSeq (effectiveLinks cfg) k s.queue s.visited := by
  intro k
  induction k with
  | zero => intro s hk; simp [crawlLoopFuel, bfsSeq]
  | succ k ih =>
    intro s hk
    rw [crawlLoopFuel]
    cases hq : s.queue with
    | nil => simp [bfsSeq]
    | cons current rest =>
      have hlt : s.pagesScraped < cfg.maxPages := by omega
      rw [if_pos ⟨by simp, hlt⟩]
      obtain ⟨hq', hv', hp', hf', _, _⟩ := crawlStep_char cfg s current rest hq
      have hk' : cfg.maxPages = (crawlStep cfg s).pagesScraped + k := by omega
      rw [ih (crawlStep cfg s) hk', hq', hv', hf', bfsSeq]
      rw [foldl_pairAdd_eq]
      simp

/-! ### Lemmas about the link-discovery pipeline -/

/-- The source's per-href loop body agrees, step by step, with the spec's
filtering pipeline: it leaves the set alone exactly when the pipeline rejects
the href, and inserts the pipeline's output otherwise. -/
lemma filStep_eq_spec (base : String) (links : List String) (h0 : String) :
    filStep base (urlparseM base).netloc links h0 =
      match spec_href_filter base h0 with
      | none => links
      | some u => dedupAdd links u := by
  unfold filStep spec_href_filter
  by_cases h1 : pyStrip h0 = ""
  · simp [h1]
  · by_cases h2 : badPrefixTest (pyStrip h0) = true
    · simp [h1, h2]
    · have h2' : badPrefixTest (pyStrip h0) = false := by
        cases hb : badPrefixTest (pyStrip h0)
        · rfl
        · exact absurd hb h2
      rw [if_pos ⟨h1, h2'⟩, if_neg h1, if_neg h2]
      dsimp only
      by_cases h3 : ((urlparseM (urljoinM base (pyStrip h0))).scheme = "http" ∨
            (urlparseM (urljoinM base (pyStrip h0))).scheme = "https") ∧
          (urlparseM (urljoinM base (pyStrip h0))).netloc = (urlparseM base).netloc
      · rw [if_pos h3, if_pos h3]
      · rw [if_neg h3, if_neg h3]

/-- Membership in the link set accumulated by the href loop. -/
lemma mem_foldl_filStep (base : String) : ∀ (hrefs : List String) (acc : List String) (u : String),
    u ∈ hrefs.foldl (filStep base (urlparseM base).netloc) acc ↔
      u ∈ acc ∨ ∃ h0 ∈ hrefs, spec_href_filter base h0 = some u := by
  intro hrefs
  induction hrefs with
  | nil => intro acc u; simp
  | cons h hs ih =>
    intro acc u
    rw [List.foldl_cons, filStep_eq_spec, ih]
    cases hs0 : spec_href_filter base h with
    | none =>
      simp only [List.mem_cons]
      constructor
      · rintro (ha | ⟨h0, hh0, he⟩)
        · exact Or.inl ha
        · exact Or.inr ⟨h0, Or.inr hh0, he⟩
      · rintro (ha | ⟨h0, rfl | hh0, he⟩)
        · exact Or.inl ha
        · rw [hs0] at he; cases he
        · exact Or.inr ⟨h0, hh0, he⟩
    | some v =>
      rw [mem_dedupAdd]
      simp only [List.mem_cons]
      constructor
      · rintro ((ha | rfl) | ⟨h0, hh0, he⟩)
        · exact Or.inl ha
        · exact Or.inr ⟨h, Or.inl rfl, hs0⟩
        · exact Or.inr ⟨h0, Or.inr hh0, he⟩
      · rintro (ha | ⟨h0, rfl | hh0, he⟩)
        · exact Or.inl (Or.inl ha)
        · rw [hs0] at he
          exact Or.inl (Or.inr (Option.some.inj he).symm)
        · exact Or.inr ⟨h0, hh0, he⟩

/-! ### The claims -/

/-- C1 — No-revisit invariant: in every run (any configuration, any number of
executed loop iterations) the ghost log of frontier enqueues is duplicate-free,
i.e. no URL is ever enqueued twice; the run starts with exactly the seed URL in
both the frontier and the visited set (and the seed is its sole enqueue so
far); and merging one discovered link appends it to the frontier only when it
is not already in the visited set, adding it to the visited set in the same
step. -/
theorem C1_no_revisit_invariant :
    (∀ (cfg : Config) (k : Nat) (start_url : String),
      (crawlLoopFuel cfg k (initState start_url)).enqueuedLog.Nodup) ∧
    (∀ start_url : String,
      (initState start_url).queue = [start_url] ∧
      (initState start_url).visited = [start_url] ∧
      (initState start_url).enqueuedLog = [start_url]) ∧
    (∀ (s : CrawlState) (link : String),
      addLink s link =
        if link ∈ s.visited then s
        else { s with
          visited := s.visited ++ [link], queue := s.queue ++ [link],
          enqueuedLog := s.enqueuedLog ++ [link] }) := by
  refine ⟨?_, ?_, ?_⟩
  · intro cfg k start_url
    have hinv : StateInv (initState start_url) := by
      refine ⟨?_, ?_⟩
      · simp [initState]
      · intro u; simp [initState]
    exact (crawlLoopFuel_inv cfg k (initState start_url) hinv).1
  · intro start_url
    exact ⟨rfl, rfl, rfl⟩
  · intro s link
    rfl

/-- C2 — Page budget: for every configuration and every number of executed
iterations, the number of pages attempted never exceeds `max_pages`, and it
equals the number of dequeued-and-fetched URLs (the counter is incremented
exactly once per dequeue). -/
theorem C2_page_budget (cfg : Config) (k : Nat) (start_url : String) :
    (crawlLoopFuel cfg k (initState start_url)).pagesScraped ≤ cfg.maxPages ∧
    (crawlLoopFuel cfg k (initState start_url)).pagesScraped =
      (crawlLoopFuel cfg k (initState start_url)).fetchedLog.length := by
  exact ⟨crawlLoopFuel_budget cfg k _ (Nat.zero_le _), crawlLoopFuel_count cfg k _ rfl⟩

/-- C3 counterexample — the claim as stated is false: it asserts that for every
run (over any legitimate enumeration of the Python link set, which is a hash
set with unspecified iteration order) the fetched sequence is the BFS
traversal whose per-page children come in anchor-encounter order.  With the
enumeration `List.reverse` — a permutation, hence a possible `list(set)`
order — and a seed page whose document links to `/a` then `/b`, the crawl
fetches `b` before `a`, while the anchor-order BFS fetches `a` before `b`. -/
theorem C3_counterexample :
    ¬ (∀ (cfg : Config) (start_url : String),
        (∀ l : List String, List.Perm (cfg.setEnum l) l) →
        (crawlLoop cfg (initState start_url)).fetchedLog =
          bfsSeq (anchorOrderLinks cfg) cfg.maxPages [start_url] [start_url]) := by
  intro hclaim
  have hperm : ∀ l : List String, List.Perm (cfgC3.setEnum l) l := fun l => List.reverse_perm l
  have hx := hclaim cfgC3 "http://s/" hperm
  exact absurd hx (by decide)

/-- C3 amended — BFS order holds with the per-page insertion order that the
engine's set enumeration actually produces (a permutation of anchor-encounter
order, but not anchor-encounter order itself): for every configuration, the
sequence of URLs dequeued and fetched by the crawl loop is exactly the
queue-based breadth-first traversal from the seed whose children function is
`effectiveLinks` (the page's discovered links, in `setEnum` order, when it
passes the fetch and threshold gates), capped at `max_pages` dequeues.  In
particular all of one page's newly discovered links are appended before the
next dequeue, so depth-`n` pages are fetched before depth-`n+1` pages. -/
theorem C3_bfs_order (cfg : Config) (start_url : String) :
    (crawlLoop cfg (initState start_url)).fetchedLog =
      bfsSeq (effectiveLinks cfg) cfg.maxPages [start_url] [start_url] := by
  have h0 : cfg.maxPages =
      (initState start_url).pagesScraped + (cfg.maxPages - (initState start_url).pagesScraped) := by
    simp [initState]
  have hb := crawlLoopFuel_bfs cfg (cfg.maxPages - (initState start_url).pagesScraped)
    (initState start_url) h0
  simpa [crawlLoop, initState] using hb

/-- C4 counterexample — the claim as stated ("saved iff the extracted cleaned
text has length at least `min_text_length`") is false at `min_text_length = 0`
(the smallest value the UI accepts) with an extractor result of `""` (a
whitespace-only page): the extracted text has length `0 ≥ 0`, yet the page is
not saved, because line 159's `if cleaned_text and len(cleaned_text) >= ...`
uses Python truthiness, which rejects the empty string. -/
theorem C4_counterexample :
    cfgC4cx.fetch "http://x/" = some "H" ∧
    cfgC4cx.clean "H" = some "" ∧
    cfgC4cx.minTextLength ≤ ("" : String).length ∧
    (initState "http://x/").queue = ["http://x/"] ∧
    (crawlStep cfgC4cx (initState "http://x/")).results = [] := by decide

/-- C4 amended — Threshold gate: for every fetched page with a truthy HTML
body whose extraction yields text `t`, the page is saved (and its discovered
links merged into the frontier) if and only if `t` is non-empty and has length
at least `min_text_length`; otherwise nothing is saved and no links are
contributed.  (For `min_text_length ≥ 1` this coincides with the original
claim: length exactly `min_text_length − 1` is never saved and contributes no
links; length exactly `min_text_length` is saved and does contribute links.) -/
theorem C4_threshold_gate (cfg : Config) (s : CrawlState) (current : String)
    (rest : List String) (html t : String)
    (hq : s.queue = current :: rest) (hf : cfg.fetch current = some html) (hh : html ≠ "")
    (hc : cfg.clean html = some t) :
    (t ≠ "" ∧ cfg.minTextLength ≤ t.length →
      (crawlStep cfg s).results = s.results ++ [⟨current, t⟩] ∧
      (crawlStep cfg s).queue =
        rest ++ newAdds s.visited (cfg.setEnum (find_internal_links (cfg.anchors html) current))) ∧
    (¬ (t ≠ "" ∧ cfg.minTextLength ≤ t.length) →
      (crawlStep cfg s).results = s.results ∧ (crawlStep cfg s).queue = rest) := by
  obtain ⟨hq', _, _, _, hr', _⟩ := crawlStep_char cfg s current rest hq
  constructor
  · intro hg
    have hsr : savedRecords cfg current = [⟨current, t⟩] := by
      simp [savedRecords, hf, hh, hc, hg]
    have hel : effectiveLinks cfg current =
        cfg.setEnum (find_internal_links (cfg.anchors html) current) := by
      simp [effectiveLinks, hf, hh, hc, hg]
    rw [hr', hsr, hq', hel]
    exact ⟨rfl, rfl⟩
  · intro hg
    have hsr : savedRecords cfg current = [] := by
      simp [savedRecords, hf, hh, hc, hg]
    have hel : effectiveLinks cfg current = [] := by
      simp [effectiveLinks, hf, hh, hc, hg]
    rw [hr', hsr, hq', hel]
    simp [newAdds]

/-- Witness for C4 amended: a page whose text has length exactly the threshold
(4) is saved and contributes its one new link to the frontier. -/
theorem C4_threshold_gate_witness :
    (crawlStep cfgC4w (initState "http://w/")).results =
      (initState "http://w/").results ++ [⟨"http://w/", "okay"⟩] ∧
    (crawlStep cfgC4w (initState "http://w/")).queue =
      [] ++ newAdds (initState "http://w/").visited
        (cfgC4w.setEnum (find_internal_links (cfgC4w.anchors "H") "http://w/")) :=
  (C4_threshold_gate cfgC4w (initState "http://w/") "http://w/" [] "H" "okay" rfl rfl
    (by decide) rfl).1 (by decide)

/-- C5 counterexample — the claim says a mid-loop abort still flushes the
accumulator to the output destination.  In a run where one page has been
saved, the frontier is non-empty and the budget not exhausted (so an exception
at that point is a genuine mid-loop abort), the code leaves the cleared
(empty) file: the accumulated record is never written, although its serialized
form is non-empty.  (`crawl_error_occurred` makes the final write at lines
206–210 conditional on no crawl error.) -/
theorem C5_counterexample :
    (crawl_website_streamlit cfgC5 "http://s5/" "scraped_content.jsonl" true true "old"
        (some 1)).state.results = [⟨"http://s5/", "texttext"⟩] ∧
    (crawlLoopFuel cfgC5 1 (initState "http://s5/")).queue ≠ [] ∧
    1 < cfgC5.maxPages ∧
    (crawl_website_streamlit cfgC5 "http://s5/" "scraped_content.jsonl" true true "old"
        (some 1)).fileContent = "" ∧
    writeAll [⟨"http://s5/", "texttext"⟩] ≠ "" := by decide

/-- C5 amended — on a mid-run abort after `k` completed iterations the records
accumulated so far are preserved in the in-memory state, but finalization does
NOT flush them: the output destination keeps the cleared (empty) content and
no result path is returned.  Only a run without a crawl error is flushed, by
overwriting the destination with one JSON line per record in accumulation
order. -/
theorem C5_abort_finalization (cfg : Config) (start_url output_file priorContent : String)
    (k : Nat) (writeOk : Bool) :
    (crawl_website_streamlit cfg start_url output_file true writeOk priorContent
        (some k)).state.results = (crawlLoopFuel cfg k (initState start_url)).results ∧
    (crawl_website_streamlit cfg start_url output_file true writeOk priorContent
        (some k)).fileContent = "" ∧
    (crawl_website_streamlit cfg start_url output_file true writeOk priorContent
        (some k)).returned = none ∧
    (crawl_website_streamlit cfg start_url output_file true true priorContent
        none).fileContent = writeAll (crawlLoop cfg (initState start_url)).results :=
  ⟨rfl, rfl, rfl, rfl⟩

/-- C6 — Link filtering: a URL is in the list returned by link discovery
exactly when the base URL's host is determinable and some href of the
document's anchors survives the spec's filtering pipeline (trim; reject empty
and `#`/`mailto:`/`tel:`/`javascript:` prefixes; resolve against the base;
keep only http/https; keep only the base host exactly; strip the fragment) and
maps to it; and an undeterminable base host yields the empty set.  Hrefs
failing any step are dropped without affecting the others. -/
theorem C6_link_filtering (hrefs : List String) (base_url : String) (u : String) :
    (u ∈ find_internal_links hrefs base_url ↔
      ((urlparseM base_url).netloc ≠ "" ∧
        ∃ h0 ∈ hrefs, spec_href_filter base_url h0 = some u)) ∧
    ((urlparseM base_url).netloc = "" → find_internal_links hrefs base_url = []) := by
  constructor
  · unfold find_internal_links
    dsimp only
    by_cases hb : (urlparseM base_url).netloc = ""
    · rw [if_pos hb]
      simp [hb]
    · rw [if_neg hb]
      rw [mem_foldl_filStep]
      simp [hb]
  · intro hb
    unfold find_internal_links
    dsimp only
    rw [if_pos hb]

/-- Witness for C6: a same-host absolute link is discovered, and a base URL
without a determinable host (`nohost` has neither scheme nor netloc) yields
the empty set. -/
theorem C6_link_filtering_witness :
    ("http://n/a" ∈ find_internal_links ["http://n/a"] "http://n/" ↔
      ((urlparseM "http://n/").netloc ≠ "" ∧
        ∃ h0 ∈ ["http://n/a"], spec_href_filter "http://n/" h0 = some "http://n/a")) ∧
    find_internal_links ["x"] "nohost" = [] :=
  ⟨(C6_link_filtering ["http://n/a"] "http://n/" "http://n/a").1,
   (C6_link_filtering ["x"] "nohost" "x").2 (by decide)⟩

/-- C7 — Fetch totality and classification: `fetch_html` is a total function
on the outcome type covering every failure path (timeout, too many redirects,
network error, non-2xx status via `raise_for_status`, unexpected error) and
returns the body as HTML exactly when a response arrived, its status passed
`raise_for_status`, and its declared content type contains `"html"`; and the
crawl loop survives a failed fetch — the step just pops the URL, counts it and
moves on, leaving the visited set, the frontier tail and the accumulator
untouched, so the loop continues with the next frontier entry. -/
theorem C7_fetch_totality :
    (∀ (o : FetchOutcome) (b : String),
      fetch_html o = some b ↔
        ∃ ct : Option String, o = FetchOutcome.response true ct b ∧
          containsSub (pyLower (ct.getD "")) "html" = true) ∧
    (∀ (cfg : Config) (s : CrawlState) (current : String) (rest : List String),
      s.queue = current :: rest → cfg.fetch current = none →
      crawlStep cfg s = { s with
        queue := rest, pagesScraped := s.pagesScraped + 1,
        fetchedLog := s.fetchedLog ++ [current] }) := by
  constructor
  · intro o b
    cases o with
    | response ok ct body =>
      cases ok with
      | false => simp [fetch_html]
      | true =>
        simp only [fetch_html]
        by_cases hct : containsSub (pyLower (ct.getD "")) "html" = true
        · rw [if_pos hct]
          constructor
          · intro hsome
            exact ⟨ct, by rw [Option.some.inj hsome], hct⟩
          · rintro ⟨ct', heq, hct'⟩
            injection heq with h1 h2 h3
            rw [h3]
            simp
        · rw [if_neg hct]
          constructor
          · intro h; cases h
          · rintro ⟨ct', heq, hct'⟩
            injection heq with h1 h2 h3
            subst h2
            exact absurd hct' hct
    | timeout => simp [fetch_html]
    | tooManyRedirects => simp [fetch_html]
    | requestError => simp [fetch_html]
    | unexpectedError => simp [fetch_html]
  · intro cfg s current rest hq hfetch
    unfold crawlStep
    rw [hq]
    dsimp only
    rw [hfetch]

/-- Witness for C7: an HTML-typed 2xx response is returned as a body, and a
crawl step over a URL whose fetch fails (every fetch of `cfgC7` fails) only
pops and counts it. -/
theorem C7_fetch_totality_witness :
    fetch_html (FetchOutcome.response true (some "text/html") "B") = some "B" ∧
    crawlStep cfgC7 (initState "http://t/") = { initState "http://t/" with
      queue := [], pagesScraped := 1, fetchedLog := ["http://t/"] } :=
  ⟨(C7_fetch_totality.1 (FetchOutcome.response true (some "text/html") "B") "B").2
      ⟨some "text/html", rfl, by decide⟩,
   C7_fetch_totality.2 cfgC7 (initState "http://t/") "http://t/" [] rfl rfl⟩

/-- C8 — Abort before start: if the start URL lacks a scheme or a host, or
clearing the output destination fails, the run returns no result path, no
page is ever dequeued or fetched, no record is accumulated, and the prior file
content is untouched.  (Clearing is attempted before the loop, so a clearing
failure in particular proves no fetch has happened yet.) -/
theorem C8_abort_before_start (cfg : Config) (start_url output_file priorContent : String)
    (clearOk writeOk : Bool) (abortAt : Option Nat)
    (h : (urlparseM start_url).scheme = "" ∨ (urlparseM start_url).netloc = "" ∨
      clearOk = false) :
    (startCrawlApp cfg start_url output_file clearOk writeOk priorContent abortAt).returned =
      none ∧
    (startCrawlApp cfg start_url output_file clearOk writeOk priorContent
        abortAt).state.fetchedLog = [] ∧
    (startCrawlApp cfg start_url output_file clearOk writeOk priorContent
        abortAt).state.pagesScraped = 0 ∧
    (startCrawlApp cfg start_url output_file clearOk writeOk priorContent
        abortAt).state.results = [] ∧
    (startCrawlApp cfg start_url output_file clearOk writeOk priorContent
        abortAt).fileContent = priorContent := by
  unfold startCrawlApp
  dsimp only
  by_cases hv : (urlparseM start_url).scheme ≠ "" ∧ (urlparseM start_url).netloc ≠ ""
  · rw [if_pos hv]
    have hco : clearOk = false := by
      rcases h with h | h | h
      · exact absurd h hv.1
      · exact absurd h hv.2
      · exact h
    subst hco
    unfold crawl_website_streamlit
    rw [if_pos rfl]
    exact ⟨rfl, rfl, rfl, rfl, rfl⟩
  · rw [if_neg hv]
    exact ⟨rfl, rfl, rfl, rfl, rfl⟩

/-- Witness for C8: a start URL with no scheme is rejected before anything
happens. -/
theorem C8_abort_before_start_witness :
    (startCrawlApp cfgC7 "example.com" "out.jsonl" true true "prior" none).returned = none ∧
    (startCrawlApp cfgC7 "example.com" "out.jsonl" true true "prior" none).state.fetchedLog =
      [] ∧
    (startCrawlApp cfgC7 "example.com" "out.jsonl" true true "prior" none).state.pagesScraped =
      0 ∧
    (startCrawlApp cfgC7 "example.com" "out.jsonl" true true "prior" none).state.results = [] ∧
    (startCrawlApp cfgC7 "example.com" "out.jsonl" true true "prior" none).fileContent =
      "prior" :=
  C8_abort_before_start cfgC7 "example.com" "out.jsonl" "prior" true true none
    (Or.inl (by decide))

/-- C9 — Output format: a successful run fully overwrites the destination with
exactly one JSON line per saved record in accumulation order (the content is a
function of the accumulated records only, independent of the prior file
content — running the same crawl again over its own output reproduces it
byte-for-byte, never appending); each line is the `json.dumps` of the
two-field `url`/`text` object with non-ASCII characters written unescaped, as
the concrete record containing `café` shows. -/
theorem C9_output_format (cfg : Config) (start_url output_file prior : String) :
    (crawl_website_streamlit cfg start_url output_file true true prior none).fileContent =
      writeAll (crawlLoop cfg (initState start_url)).results ∧
    (crawl_website_streamlit cfg start_url output_file true true
        ((crawl_website_streamlit cfg start_url output_file true true prior
          none).fileContent) none).fileContent =
      (crawl_website_streamlit cfg start_url output_file true true prior none).fileContent ∧
    writeAll [⟨"http://h/", "café"⟩] =
      "\x7b\"url\": \"http://h/\", \"text\": \"café\"\x7d\n" :=
  ⟨rfl, rfl, by decide⟩

/-- C10 — Implicit: the seed URL is not normalized.  Crawling from the seed
`http://h/p#f` (inserted verbatim into frontier and visited set) over a site
whose pages link to `http://h/p`, the engine discovers, enqueues and fetches
the fragment-stripped URL of the same page as a distinct entry: both appear in
the fetch log and in the enqueue log, although they differ only by the
fragment — the no-revisit guarantee is on exact URL strings. -/
theorem C10_seed_not_normalized :
    (crawlLoop cfgC10 (initState "http://h/p#f")).fetchedLog =
      ["http://h/p#f", "http://h/p"] ∧
    (crawlLoop cfgC10 (initState "http://h/p#f")).enqueuedLog =
      ["http://h/p#f", "http://h/p"] ∧
    urlunparseM { urlparseM "http://h/p#f" with fragment := "" } = "http://h/p" ∧
    "http://h/p#f" ≠ "http://h/p" := by decide


